import Mathlib

/-!
Verification of the deepreview-site client scripts.

The development embeds, as executable Lean functions over `List Char`,
the two browser scripts of the repository:

* the URL-parameter propagation handler (`src/unnamed/part_000` and
  `src/unnamed/part_001`, identical in the functions modelled here):
  `hasUserInfo`, `buildURLWithParams`, `getUserParams`,
  `updateUserParams`;
* the user-guide markdown machinery: `parseMarkdown` (identical in
  `src/user-guide.js` and `src/assets/user-guide.js`) and the two
  distinct variants of `markdownToHtml` (`markdownToHtml1` for
  `src/user-guide.js`, `markdownToHtmlA` for
  `src/assets/user-guide.js`).

JavaScript regular-expression stages are embedded by their matching
semantics (leftmost match, greedy/lazy quantifiers as dictated by each
pattern, `.` never matching a newline unless the `s` flag is present);
the derivations are recorded next to each definition.  Possibly
throwing JavaScript code is embedded with `Option` (`none` = a thrown
exception); everything else is total.
-/

set_option maxHeartbeats 4000000
set_option maxRecDepth 8192

abbrev Chars := List Char

/-- ASCII whitespace, as trimmed by JS `trim()` and matched by `\s`. -/
def isJsWs (c : Char) : Bool :=
  c == ' ' || c == '\t' || c == '\n' || c == '\r' || c == Char.ofNat 11 || c == Char.ofNat 12

def trimLeftC (cs : Chars) : Chars := cs.dropWhile isJsWs

def trimRightC (cs : Chars) : Chars := (cs.reverse.dropWhile isJsWs).reverse

/-- JS `String.prototype.trim` (ASCII whitespace). -/
def jsTrim (cs : Chars) : Chars := trimRightC (trimLeftC cs)

def jsTrimS (s : String) : String := String.mk (jsTrim s.data)

/-- Is `pat` a prefix of the second list (JS `startsWith`). -/
def isPrefixB : Chars → Chars → Bool
  | [], _ => true
  | _ :: _, [] => false
  | p :: ps, c :: cs => p == c && isPrefixB ps cs

/-- Split at the leftmost occurrence of `pat`:
`some (before, after)` with the input equal to `before ++ pat ++ after`. -/
def splitFirst (pat : Chars) : Chars → Option (Chars × Chars)
  | [] => if isPrefixB pat [] then some ([], []) else none
  | c :: cs =>
    if isPrefixB pat (c :: cs) then some ([], (c :: cs).drop pat.length)
    else
      match splitFirst pat cs with
      | some (b, a) => some (c :: b, a)
      | none => none

/-- JS `includes`: does `pat` occur in `cs`. -/
def occursB (pat cs : Chars) : Bool := (splitFirst pat cs).isSome

/-- Split at the rightmost occurrence of `pat` (fuel-bounded recursion on
successively shorter suffixes; `fuel ≥ length + 1` is always enough). -/
def lastSplit (pat : Chars) : Nat → Chars → Option (Chars × Chars)
  | 0, _ => none
  | Nat.succ f, cs =>
    match splitFirst pat cs with
    | none => none
    | some (b, a) =>
      match lastSplit pat f a with
      | none => some (b, a)
      | some (b2, a2) => some (b ++ pat ++ b2, a2)

/-- JS `split(sep)` with a literal separator string (fuel-bounded). -/
def splitOnSub (pat : Chars) : Nat → Chars → List Chars
  | 0, cs => [cs]
  | Nat.succ f, cs =>
    match splitFirst pat cs with
    | none => [cs]
    | some (b, a) => b :: splitOnSub pat f a

/-- JS `replace(pat, rep)` with a global literal pattern: one left-to-right
pass, replaced text is not rescanned. -/
def replaceAllSub (pat rep : Chars) : Nat → Chars → Chars
  | 0, cs => cs
  | Nat.succ f, cs =>
    match splitFirst pat cs with
    | none => cs
    | some (b, a) => b ++ rep ++ replaceAllSub pat rep f a

/-- Count the non-overlapping occurrences of `pat`, left to right. -/
def countSub (pat : Chars) : Nat → Chars → Nat
  | 0, _ => 0
  | Nat.succ f, cs =>
    match splitFirst pat cs with
    | none => 0
    | some (_, a) => countSub pat f a + 1

def countSubS (pat s : String) : Nat := countSub pat.data (s.data.length + 1) s.data

/-- JS `split('\n')`. -/
def splitNL : Chars → List Chars
  | [] => [[]]
  | c :: cs =>
    if c == '\n' then [] :: splitNL cs
    else
      match splitNL cs with
      | h :: t => (c :: h) :: t
      | [] => [[c]]

/-- JS `join('\n')`. -/
def joinNL : List Chars → Chars
  | [] => []
  | [l] => l
  | l :: ls => l ++ '\n' :: joinNL ls

/-- Apply `f` to every line; this is the semantics of a
`replace(/^...$/gm, ...)` pass whose per-line action is `f`. -/
def mapLines (f : Chars → Chars) (cs : Chars) : Chars := joinNL ((splitNL cs).map f)

/-- Collapse each run of newlines to a single newline
(JS `replace(/\n+/g, '\n')`). -/
def collapseNL : Chars → Chars
  | [] => []
  | [c] => [c]
  | c :: c2 :: cs =>
    if c == '\n' && c2 == '\n' then collapseNL (c2 :: cs)
    else c :: collapseNL (c2 :: cs)

/-- JS object-property assignment `m[k] = v` on a string-keyed object kept
as an insertion-ordered association list: an existing key keeps its
position, a new key is appended. -/
def jsObjSet {α : Type} (m : List (String × α)) (k : String) (v : α) : List (String × α) :=
  if m.any (fun q => q.1 == k) then m.map (fun q => if q.1 == k then (k, v) else q)
  else m ++ [(k, v)]

/-- JS object-property lookup `m[k]`. -/
def jsObjGet {α : Type} (m : List (String × α)) (k : String) : Option α :=
  (m.find? (fun q => q.1 == k)).map (fun q => q.2)

/-! ## URL-parameter handler (src/unnamed/part_000, src/unnamed/part_001)

The six attribution parameters, `hasUserInfo` and `buildURLWithParams`
are identical in the two variants (part_000 lines 15–74, part_001
lines 15–74). -/

structure UserParams where
  email : String
  userName : String
  userSub : String
  source : String
  plan : String
  flowId : String
deriving DecidableEq

/-- Truthiness of a JS string: any nonempty string is truthy. -/
def jsTruthyS (s : String) : Bool := !(s.data.isEmpty)

/-- part_001 line 30–32: `!!(this.userParams.email && this.userParams.email.trim())`. -/
def hasUserInfo (p : UserParams) : Bool :=
  jsTruthyS p.email && jsTruthyS (jsTrimS p.email)

/-- UTF-8 encoding of one code point, as a list of byte values. -/
def utf8Bytes (c : Char) : List Nat :=
  let n := c.toNat
  if n < 128 then [n]
  else if n < 2048 then [192 + n / 64, 128 + n % 64]
  else if n < 65536 then [224 + n / 4096, 128 + n / 64 % 64, 128 + n % 64]
  else [240 + n / 262144, 128 + n / 4096 % 64, 128 + n / 64 % 64, 128 + n % 64]

/-- Bytes serialized verbatim by `application/x-www-form-urlencoded`
(`URLSearchParams.toString`): ASCII alphanumerics and `*` `-` `.` `_`. -/
def isFormSafe (b : Nat) : Bool :=
  (48 ≤ b && b ≤ 57) || (65 ≤ b && b ≤ 90) || (97 ≤ b && b ≤ 122) ||
    b == 42 || b == 45 || b == 46 || b == 95

def hexDigit (n : Nat) : Char := if n < 10 then Char.ofNat (48 + n) else Char.ofNat (55 + n)

def formEncodeByte (b : Nat) : Chars :=
  if isFormSafe b then [Char.ofNat b]
  else if b == 32 then ['+']
  else ['%', hexDigit (b / 16), hexDigit (b % 16)]

/-- `application/x-www-form-urlencoded` percent-encoding of a string. -/
def formEncode (s : String) : Chars :=
  (s.data.map (fun c => ((utf8Bytes c).map formEncodeByte).flatten)).flatten

def joinSep (sep : Chars) : List Chars → Chars
  | [] => []
  | [x] => x
  | x :: xs => x ++ sep ++ joinSep sep xs

/-- `URLSearchParams.toString()` on an insertion-ordered parameter list. -/
def uspToString (l : List (String × String)) : String :=
  String.mk (joinSep ['&'] (l.map (fun q => formEncode q.1 ++ '=' :: formEncode q.2)))

/-- part_001 lines 48–55: the six conditional `params.set` calls, executed
when `hasUserInfo()` holds. -/
def addUserParams (p : UserParams) (ps : List (String × String)) : List (String × String) :=
  let ps := if jsTruthyS p.email then jsObjSet ps "email" p.email else ps
  let ps := if jsTruthyS p.userName then jsObjSet ps "userName" p.userName else ps
  let ps := if jsTruthyS p.userSub then jsObjSet ps "userSub" p.userSub else ps
  let ps := if jsTruthyS p.source then jsObjSet ps "source" p.source else ps
  let ps := if jsTruthyS p.plan then jsObjSet ps "plan" p.plan else ps
  if jsTruthyS p.flowId then jsObjSet ps "flowId" p.flowId else ps

/-- part_001 lines 37–74: `buildURLWithParams(baseUrl, additionalParams)`.
The additional-parameter object is an insertion-ordered string map.
None of the string operations in the `try` block can throw, so the
function is total; the `catch` branch (return `baseUrl` unchanged) is
unreachable in this semantics. -/
def buildURLWithParams (p : UserParams) (baseUrl : String)
    (additionalParams : List (String × String)) : String :=
  if !hasUserInfo p && additionalParams.isEmpty then baseUrl
  else
    let params : List (String × String) := []
    let params := if hasUserInfo p then addUserParams p params else params
    let params := additionalParams.foldl
      (fun ps kv => if jsTruthyS kv.2 then jsObjSet ps kv.1 kv.2 else ps) params
    let paramString := uspToString params
    if jsTruthyS paramString then
      let separator := if occursB ['?'] baseUrl.data then "&" else "?"
      baseUrl ++ separator ++ paramString
    else baseUrl

/-- The handler object; its only data field is the attribution snapshot
(part_001 line 8). -/
structure URLParamsHandler where
  userParams : UserParams
deriving DecidableEq

/-- The `buildURLWithParams` method viewed as a state transformer on the
handler: it reads `this.userParams` and never writes it. -/
def URLParamsHandler.buildURL (h : URLParamsHandler) (base : String)
    (extra : List (String × String)) : URLParamsHandler × String :=
  (h, buildURLWithParams h.userParams base extra)

/-! ## Helper lemmas about strings -/

theorem strAppendEmptyR (s : String) : s ++ "" = s := by
  cases s with
  | mk d =>
    show String.mk (d ++ []) = String.mk d
    rw [List.append_nil]

theorem strAppendAssocH (a b c : String) : (a ++ b) ++ c = a ++ (b ++ c) := by
  cases a with
  | mk x =>
    cases b with
    | mk y =>
      cases c with
      | mk z =>
        show String.mk ((x ++ y) ++ z) = String.mk (x ++ (y ++ z))
        rw [List.append_assoc]

theorem existsSuffixIte (b : Prop) [Decidable b] (base sep ps : String) :
    ∃ suffix : String, (if b then (base ++ sep) ++ ps else base) = base ++ suffix := by
  by_cases h : b
  · exact ⟨sep ++ ps, by rw [if_pos h, strAppendAssocH]⟩
  · exact ⟨"", by rw [if_neg h, strAppendEmptyR]⟩

theorem jsTruthyS_eq_true_iff (s : String) : jsTruthyS s = true ↔ s ≠ "" := by
  cases s with
  | mk d =>
    cases d with
    | nil => simp [jsTruthyS]
    | cons c cs =>
      simp only [jsTruthyS, List.isEmpty, Bool.not_false, true_iff]
      intro h
      exact List.noConfusion (congrArg String.data h)

/-! ## Claims about the URL-parameter handler -/

/-- C2: if `hasUserInfo()` is false and the additional-parameter map is
empty, `buildURLWithParams` returns the base string unchanged
(part_001 lines 38–41). -/
theorem buildURL_anonymous_identity (p : UserParams) (base : String)
    (h : hasUserInfo p = false) : buildURLWithParams p base [] = base := by
  simp [buildURLWithParams, h]

/-- Witness for `buildURL_anonymous_identity` at the all-empty snapshot and
base `"pricing.html"`. -/
theorem buildURL_anonymous_identity_witness :
    hasUserInfo ⟨"", "", "", "", "", ""⟩ = false ∧
      buildURLWithParams ⟨"", "", "", "", "", ""⟩ "pricing.html" [] = "pricing.html" :=
  ⟨by decide, buildURL_anonymous_identity ⟨"", "", "", "", "", ""⟩ "pricing.html" (by decide)⟩

/-- C3: with only `email = "a@b.com"` set, `buildURLWithParams` appends the
percent-encoded email, with `?` on a bare base and `&` on a base that
already has a query string (part_001 lines 43–69). -/
theorem buildURL_email_encoding :
    buildURLWithParams ⟨"a@b.com", "", "", "", "", ""⟩ "pricing.html" [] =
      "pricing.html?email=a%40b.com" ∧
    buildURLWithParams ⟨"a@b.com", "", "", "", "", ""⟩ "pricing.html?x=1" [] =
      "pricing.html?x=1&email=a%40b.com" := by
  decide

/-- C1 counterexample: with `hasUserInfo()` false, a call whose
extra-parameter map contains the key `userName` returns a URL that does
contain the parameter `userName`, even though the snapshot's own
`userName` field is non-empty and is not propagated. -/
theorem hasUserInfo_gating_counterexample :
    hasUserInfo ⟨"", "u", "", "", "", ""⟩ = false ∧
    buildURLWithParams ⟨"", "u", "", "", "", ""⟩ "pricing.html" [("userName", "x")] =
      "pricing.html?userName=x" ∧
    occursB "userName".data ("pricing.html?userName=x").data = true := by
  decide

/-- C1 (amended): `hasUserInfo` is true iff the email field is non-blank
(non-empty after trimming), and when it is false the result of
`buildURLWithParams` does not depend on the snapshot at all — any two
snapshots without user info produce the same URL, so no snapshot field
(`userName`, `userSub`, `source`, `plan`, `flowId`) is appended; only the
extra-parameter map contributes. -/
theorem hasUserInfo_iff_and_no_snapshot_leak (p q : UserParams) (base : String)
    (extra : List (String × String)) :
    (hasUserInfo p = true ↔ jsTrimS p.email ≠ "") ∧
    (hasUserInfo p = false → hasUserInfo q = false →
      buildURLWithParams p base extra = buildURLWithParams q base extra) := by
  constructor
  · constructor
    · intro h
      rw [hasUserInfo, Bool.and_eq_true] at h
      exact (jsTruthyS_eq_true_iff _).1 h.2
    · intro h
      have he : p.email ≠ "" := by
        intro h0
        apply h
        rw [jsTrimS, h0]
        rfl
      unfold hasUserInfo
      rw [(jsTruthyS_eq_true_iff _).2 he, (jsTruthyS_eq_true_iff _).2 h]
      rfl
  · intro hp hq
    simp [buildURLWithParams, hp, hq]

/-- Witness for `hasUserInfo_iff_and_no_snapshot_leak`: two different
snapshots without user info yield the same URL. -/
theorem hasUserInfo_iff_and_no_snapshot_leak_witness :
    buildURLWithParams ⟨"", "u1", "s1", "", "", ""⟩ "a.html" [("k", "v")] =
      buildURLWithParams ⟨" ", "", "", "", "p2", "f2"⟩ "a.html" [("k", "v")] :=
  (hasUserInfo_iff_and_no_snapshot_leak ⟨"", "u1", "s1", "", "", ""⟩
    ⟨" ", "", "", "", "p2", "f2"⟩ "a.html" [("k", "v")]).2 (by decide) (by decide)

/-- C4: the `buildURLWithParams` method never throws (it is embedded as a
total function: no operation in its `try` block is fallible, so the
`catch` fallback returning `baseUrl` is unreachable), it leaves the
handler's stored snapshot untouched, and its result always extends the
base string — it is the base itself or the base followed by a separator
and a query string (part_001 lines 43–73). -/
theorem buildURL_failopen_frame (h : URLParamsHandler) (base : String)
    (extra : List (String × String)) :
    (h.buildURL base extra).1 = h ∧
    ∃ suffix : String, (h.buildURL base extra).2 = base ++ suffix := by
  refine ⟨rfl, ?_⟩
  show ∃ suffix : String, buildURLWithParams h.userParams base extra = base ++ suffix
  unfold buildURLWithParams
  split
  · exact ⟨"", (strAppendEmptyR base).symm⟩
  · dsimp only
    exact existsSuffixIte _ base _ _

/-! ## Object identity for `getUserParams` (part_000 lines 205–215,
part_001 lines 203–213)

JS objects are references into a heap; `{ ...o }` allocates a fresh
object with the same fields.  The heap is modelled as a map from
allocation indices to `UserParams` records together with a next-free
index; the handler holds a reference to its snapshot object. -/

structure JSHeap where
  mem : Nat → UserParams
  next : Nat

def JSHeap.read (h : JSHeap) (r : Nat) : UserParams := h.mem r

def JSHeap.write (h : JSHeap) (r : Nat) (v : UserParams) : JSHeap :=
  ⟨fun i => if i == r then v else h.mem i, h.next⟩

def JSHeap.alloc (h : JSHeap) (v : UserParams) : JSHeap × Nat :=
  (⟨fun i => if i == h.next then v else h.mem i, h.next + 1⟩, h.next)

structure HandlerRef where
  userParamsRef : Nat

/-- part_001 lines 203–205: `getUserParams()` returns `{ ...this.userParams }`,
a freshly allocated shallow copy of the snapshot object. -/
def getUserParams (h : JSHeap) (hd : HandlerRef) : JSHeap × Nat :=
  JSHeap.alloc h (JSHeap.read h hd.userParamsRef)

/-- The argument of `updateUserParams`: fields present in the object
literal override the stored ones. -/
structure ParamsPatch where
  emailP : Option String
  userNameP : Option String
  userSubP : Option String
  sourceP : Option String
  planP : Option String
  flowIdP : Option String

/-- `{ ...this.userParams, ...newParams }`: the merged record. -/
def mergeParams (old : UserParams) (np : ParamsPatch) : UserParams :=
  ⟨np.emailP.getD old.email, np.userNameP.getD old.userName,
    np.userSubP.getD old.userSub, np.sourceP.getD old.source,
    np.planP.getD old.plan, np.flowIdP.getD old.flowId⟩

/-- part_001 lines 210–213: `updateUserParams` allocates the merged object
and repoints `this.userParams` at it. -/
def updateUserParams (h : JSHeap) (hd : HandlerRef) (np : ParamsPatch) :
    JSHeap × HandlerRef :=
  let ar := JSHeap.alloc h (mergeParams (JSHeap.read h hd.userParamsRef) np)
  (ar.1, ⟨ar.2⟩)

/-- C10: `getUserParams` returns a copy — writing any mutation `f` through
the returned reference leaves the handler's stored snapshot, and hence
every subsequent `hasUserInfo` and `buildURLWithParams` result,
unchanged; and `updateUserParams` stores exactly the merge of the patch
over the previous snapshot. -/
theorem getUserParams_copy_semantics (h : JSHeap) (hd : HandlerRef)
    (f : UserParams → UserParams) (hv : hd.userParamsRef < h.next) :
    JSHeap.read (JSHeap.write (getUserParams h hd).1 (getUserParams h hd).2
        (f (JSHeap.read (getUserParams h hd).1 (getUserParams h hd).2)))
        hd.userParamsRef = JSHeap.read h hd.userParamsRef ∧
    hasUserInfo (JSHeap.read (JSHeap.write (getUserParams h hd).1 (getUserParams h hd).2
        (f (JSHeap.read (getUserParams h hd).1 (getUserParams h hd).2)))
        hd.userParamsRef) = hasUserInfo (JSHeap.read h hd.userParamsRef) ∧
    (∀ base extra,
      buildURLWithParams (JSHeap.read (JSHeap.write (getUserParams h hd).1
          (getUserParams h hd).2 (f (JSHeap.read (getUserParams h hd).1
          (getUserParams h hd).2))) hd.userParamsRef) base extra =
        buildURLWithParams (JSHeap.read h hd.userParamsRef) base extra) ∧
    (∀ np, JSHeap.read (updateUserParams h hd np).1
        (updateUserParams h hd np).2.userParamsRef =
      mergeParams (JSHeap.read h hd.userParamsRef) np) := by
  have hne : (hd.userParamsRef == h.next) = false := by
    simp only [beq_eq_false_iff_ne]
    exact Nat.ne_of_lt hv
  have key : JSHeap.read (JSHeap.write (getUserParams h hd).1 (getUserParams h hd).2
      (f (JSHeap.read (getUserParams h hd).1 (getUserParams h hd).2)))
      hd.userParamsRef = JSHeap.read h hd.userParamsRef := by
    simp only [getUserParams, JSHeap.alloc, JSHeap.read, JSHeap.write, hne]
    simp
  refine ⟨key, by rw [key], fun base extra => by rw [key], fun np => ?_⟩
  simp [updateUserParams, JSHeap.alloc, JSHeap.read]

def wHeap : JSHeap := ⟨fun _ => ⟨"e@x", "u", "", "", "", ""⟩, 1⟩

def wHd : HandlerRef := ⟨0⟩

def wF : UserParams → UserParams := fun p => { p with email := "hacked" }

/-- Witness for `getUserParams_copy_semantics` on a one-object heap. -/
theorem getUserParams_copy_semantics_witness :
    JSHeap.read (JSHeap.write (getUserParams wHeap wHd).1 (getUserParams wHeap wHd).2
        (wF (JSHeap.read (getUserParams wHeap wHd).1 (getUserParams wHeap wHd).2)))
        wHd.userParamsRef = JSHeap.read wHeap wHd.userParamsRef :=
  (getUserParams_copy_semantics wHeap wHd wF (by decide)).1

/-! ## parseMarkdown (src/user-guide.js lines 64–114, identical to
src/assets/user-guide.js lines 60–110) -/

/-- The seven emoji-marked heading prefixes tested by `line.startsWith`
(user-guide.js lines 71–73). -/
def emojiPrefixes : List String :=
  ["## 🎯", "## 🔗", "## ⚙️", "## 🚀", "## 🔒", "## 💎", "## 📞"]

def isEmojiHeading (l : Chars) : Bool :=
  emojiPrefixes.any (fun p => isPrefixB p.data l)

/-- The trigger-phrase if-chain (user-guide.js lines 82–96); a line that
matches no phrase yields `none`, and the caller then keeps the previous
`currentSection`. -/
def keyPhrase (l : Chars) : Option String :=
  if occursB "应用场景".data l || occursB "Application Scenarios".data l then some "scenarios"
  else if occursB "AI供应商".data l || occursB "AI Provider".data l then some "providers"
  else if occursB "基础功能".data l || occursB "Basic Functions".data l then some "basic"
  else if occursB "高级功能".data l || occursB "Advanced Features".data l then some "advanced"
  else if occursB "隐私与安全".data l || occursB "Privacy & Security".data l then some "privacy"
  else if occursB "订阅政策".data l || occursB "Subscription Policy".data l then some "subscription"
  else if occursB "支持与反馈".data l || occursB "Support & Feedback".data l then some "support"
  else none

structure MDSection where
  title : String
  content : String
deriving DecidableEq, Repr

structure ParseState where
  sections : List (String × MDSection)
  currentSection : Option String
  currentContent : List Chars
deriving DecidableEq

/-- `currentContent[0].replace(/^## /, '')`: the anchored pattern strips a
leading `"## "` once, if present. -/
def titleOf (l : Chars) : Chars :=
  if isPrefixB "## ".data l then l.drop 3 else l

/-- Store the open section, if any (user-guide.js lines 75–80 and
106–111): only happens when a section is open and its content list is
non-empty. -/
def flushSection (st : ParseState) : List (String × MDSection) :=
  match st.currentSection, st.currentContent with
  | some k, c :: cs =>
    jsObjSet st.sections k ⟨String.mk (titleOf c), String.mk (joinNL (c :: cs))⟩
  | _, _ => st.sections

/-- One iteration of the `for (const line of lines)` loop
(user-guide.js lines 70–104). -/
def parseStep (st : ParseState) (l : Chars) : ParseState :=
  if isEmojiHeading l then
    { sections := flushSection st,
      currentSection :=
        match keyPhrase l with
        | some k => some k
        | none => st.currentSection,
      currentContent := [l] }
  else if st.currentSection.isSome then
    { st with currentContent := st.currentContent ++ [l] }
  else st

def parseLines (ls : List Chars) : List (String × MDSection) :=
  flushSection (ls.foldl parseStep ⟨[], none, []⟩)

/-- `parseMarkdown(content)`: split on newlines, run the loop, store the
last open section. -/
def parseMarkdown (content : String) : List (String × MDSection) :=
  parseLines (splitNL content.data)

/-! ## Claims about parseMarkdown -/

/-- C8 counterexample: the emoji-marked heading `"## 🎯 Unknown"` matches no
trigger phrase, yet it is not skipped harmlessly — it flushes the open
`scenarios` section and re-accumulates under the same key, so the
previously parsed `scenarios` content (`"## 🎯 Application Scenarios\nA"`)
is overwritten by the unknown block. -/
theorem parseMarkdown_unknown_heading_clobbers :
    keyPhrase "## 🎯 Unknown".data = none ∧
    parseMarkdown "## 🎯 Application Scenarios\nA\n## 🎯 Unknown\nB\n## 🔗 AI Provider\nC" =
      [("scenarios", ⟨"🎯 Unknown", "## 🎯 Unknown\nB"⟩),
       ("providers", ⟨"🔗 AI Provider", "## 🔗 AI Provider\nC"⟩)] := by
  decide

theorem parseStep_init_of_not_heading (l : Chars) (h : isEmojiHeading l = false) :
    parseStep ⟨[], none, []⟩ l = ⟨[], none, []⟩ := by
  simp [parseStep, h]

theorem foldl_parseStep_init (pre : List Chars)
    (h : pre.all (fun l => !isEmojiHeading l) = true) :
    pre.foldl parseStep ⟨[], none, []⟩ = ⟨[], none, []⟩ := by
  induction pre with
  | nil => rfl
  | cons l ls ih =>
    rw [List.all_cons, Bool.and_eq_true] at h
    rw [List.foldl_cons, parseStep_init_of_not_heading l (by simpa using h.1)]
    exact ih h.2

theorem foldl_parseStep_open (body : List Chars) :
    ∀ (st : ParseState) (k : String), st.currentSection = some k →
      body.all (fun l => !isEmojiHeading l) = true →
      body.foldl parseStep st = ⟨st.sections, some k, st.currentContent ++ body⟩ := by
  induction body with
  | nil =>
    intro st k hk _
    rw [List.foldl_nil, List.append_nil, ← hk]
  | cons l ls ih =>
    intro st k hk hall
    rw [List.all_cons, Bool.and_eq_true] at hall
    have h1 : isEmojiHeading l = false := by simpa using hall.1
    have hstep : parseStep st l = ⟨st.sections, st.currentSection, st.currentContent ++ [l]⟩ := by
      simp [parseStep, h1, hk]
    rw [List.foldl_cons, hstep,
      ih ⟨st.sections, st.currentSection, st.currentContent ++ [l]⟩ k hk hall.2]
    simp [List.append_assoc]

/-- C8 (amended): `parseMarkdown` discards all lines before the first
emoji-marked heading; a recognized heading opens its section and
accumulates every following line, the heading line included, until the
next emoji-marked heading or end of input, where the open section is
finalized; but an emoji-marked `##` heading whose phrase matches none of
the seven mappings is not skipped harmlessly — it closes the open section
and re-accumulates under the same key, so its block overwrites that
section's previously parsed content at the next flush. -/
theorem parseMarkdown_sectioning :
    (∀ pre rest : List Chars, pre.all (fun l => !isEmojiHeading l) = true →
      parseLines (pre ++ rest) = parseLines rest) ∧
    (∀ (h : Chars) (body : List Chars) (k : String),
      isEmojiHeading h = true → keyPhrase h = some k →
      body.all (fun l => !isEmojiHeading l) = true →
      parseLines (h :: body) =
        [(k, ⟨String.mk (titleOf h), String.mk (joinNL (h :: body))⟩)]) ∧
    (∀ (h : Chars) (body : List Chars) (h2 : Chars) (body2 : List Chars) (k : String),
      isEmojiHeading h = true → keyPhrase h = some k →
      isEmojiHeading h2 = true → keyPhrase h2 = none →
      body.all (fun l => !isEmojiHeading l) = true →
      body2.all (fun l => !isEmojiHeading l) = true →
      parseLines (h :: (body ++ h2 :: body2)) =
        [(k, ⟨String.mk (titleOf h2), String.mk (joinNL (h2 :: body2))⟩)]) := by
  refine ⟨?_, ?_, ?_⟩
  · intro pre rest hall
    unfold parseLines
    rw [List.foldl_append, foldl_parseStep_init pre hall]
  · intro h body k hh hk hall
    unfold parseLines
    have hstep : parseStep ⟨[], none, []⟩ h = ⟨[], some k, [h]⟩ := by
      simp [parseStep, hh, hk, flushSection]
    rw [List.foldl_cons, hstep, foldl_parseStep_open body ⟨[], some k, [h]⟩ k rfl hall]
    simp [flushSection, jsObjSet, List.singleton_append]
  · intro h body h2 body2 k hh hk hh2 hk2 hall hall2
    unfold parseLines
    have hstep : parseStep ⟨[], none, []⟩ h = ⟨[], some k, [h]⟩ := by
      simp [parseStep, hh, hk, flushSection]
    rw [List.foldl_cons, hstep, List.foldl_append,
      foldl_parseStep_open body ⟨[], some k, [h]⟩ k rfl hall]
    have hstep2 : parseStep ⟨[], some k, [h] ++ body⟩ h2 =
        ⟨[(k, ⟨String.mk (titleOf h), String.mk (joinNL (h :: body))⟩)], some k, [h2]⟩ := by
      simp [parseStep, hh2, hk2, flushSection, jsObjSet, List.singleton_append]
    rw [List.foldl_cons, hstep2,
      foldl_parseStep_open body2
        ⟨[(k, ⟨String.mk (titleOf h), String.mk (joinNL (h :: body))⟩)], some k, [h2]⟩ k rfl hall2]
    simp [flushSection, jsObjSet, List.singleton_append]

/-- Witness for `parseMarkdown_sectioning`: a recognized section is
overwritten by a following unknown emoji heading on a concrete document. -/
theorem parseMarkdown_sectioning_witness :
    parseLines ("## 🔗 AI Provider".data :: (["x".data] ++ "## 💎 Other".data :: ["y".data])) =
      [("providers", ⟨String.mk (titleOf "## 💎 Other".data),
        String.mk (joinNL ("## 💎 Other".data :: ["y".data]))⟩)] :=
  parseMarkdown_sectioning.2.2 "## 🔗 AI Provider".data ["x".data] "## 💎 Other".data
    ["y".data] "providers" (by decide) (by decide) (by decide) (by decide) (by decide) (by decide)

/-! ## markdownToHtml: shared regex stages

Stages common to both variants (`src/user-guide.js` lines 214–230,
`src/assets/user-guide.js` lines 213–228).  Each `replace` with a
`/.../g` pattern is embedded by its matching semantics; `.` and the
negated classes `[^...]` never match a newline unless noted. -/

/-- One heading pass `replace(/^P (.*$)/gm, '<hN>$1</hN>')`, acting on
each line. -/
def headingRepl (p o c : Chars) (l : Chars) : Chars :=
  if isPrefixB p l then o ++ l.drop p.length ++ c else l

/-- `replace(/D(.*?)D/g, o$1c)` for a one-line delimiter `D` (`**` or `*`):
the leftmost delimiter occurrence starts a match, the lazy body ends at
the next occurrence; if no second occurrence follows, nothing more
matches.  Applied per line because `.` cannot cross a newline. -/
def pairRepl (pat o c : Chars) : Nat → Chars → Chars
  | 0, cs => cs
  | Nat.succ f, cs =>
    match splitFirst pat cs with
    | none => cs
    | some (b1, r1) =>
      match splitFirst pat r1 with
      | none => cs
      | some (content, rest) => b1 ++ o ++ content ++ c ++ pairRepl pat o c f rest

/-- user-guide.js lines 222–223 / assets lines 220–221: bold then italic. -/
def emphasisStage (cs : Chars) : Chars :=
  mapLines (fun l => pairRepl ['*'] "<em>".data "</em>".data (l.length + 1) l)
    (mapLines (fun l => pairRepl ['*', '*'] "<strong>".data "</strong>".data (l.length + 1) l) cs)

/-- `replace(/\[([^\]]+)\]\(([^)]+)\)/g, ...)` (user-guide.js line 226 /
assets line 224): scan for `[`, a nonempty run up to the first `]`, an
immediate `(`, a nonempty run up to the first `)`; on failure the scan
advances one character. -/
def linksStage : Nat → Chars → Chars
  | 0, cs => cs
  | Nat.succ _, [] => []
  | Nat.succ f, c :: rest =>
    if c == '[' then
      let text := rest.takeWhile (fun x => !(x == ']'))
      let r1 := rest.drop text.length
      match r1 with
      | ']' :: '(' :: r2 =>
        let url := r2.takeWhile (fun x => !(x == ')'))
        let r3 := r2.drop url.length
        if !text.isEmpty && !url.isEmpty && isPrefixB [')'] r3 then
          "<a href=\"".data ++ url ++ "\" target=\"_blank\">".data ++ text ++
            "</a>".data ++ linksStage f (r3.drop 1)
        else c :: linksStage f rest
      | _ => c :: linksStage f rest
    else c :: linksStage f rest

/-- Fenced code `replace(/```([^`]*?)```/gs, ...)` (user-guide.js line 229 /
assets line 227): after an opening triple backtick the lazy body runs to
the first backtick, where a closing triple backtick must stand; on
failure the scan advances one character. -/
def fenceStage : Nat → Chars → Chars
  | 0, cs => cs
  | Nat.succ _, [] => []
  | Nat.succ f, c :: rest =>
    if isPrefixB "```".data (c :: rest) then
      let afterT := (c :: rest).drop 3
      let content := afterT.takeWhile (fun x => !(x == '`'))
      let r2 := afterT.drop content.length
      if isPrefixB "```".data r2 then
        "<pre><code>".data ++ content ++ "</code></pre>".data ++ fenceStage f (r2.drop 3)
      else c :: fenceStage f rest
    else c :: fenceStage f rest

/-- Inline code `replace(/`([^`]+)`/g, ...)` (user-guide.js line 230 /
assets line 228). -/
def inlineCodeStage : Nat → Chars → Chars
  | 0, cs => cs
  | Nat.succ _, [] => []
  | Nat.succ f, c :: rest =>
    if c == '`' then
      let content := rest.takeWhile (fun x => !(x == '`'))
      let r2 := rest.drop content.length
      if !content.isEmpty && isPrefixB ['`'] r2 then
        "<code>".data ++ content ++ "</code>".data ++ inlineCodeStage f (r2.drop 1)
      else c :: inlineCodeStage f rest
    else c :: inlineCodeStage f rest

/-! ## markdownToHtml, src/user-guide.js variant (lines 214–278) -/

/-- Lines 217–219: `###`, `##`, `#` passes in that order; there is no
`####` pass in this variant. -/
def headingsStage1 (cs : Chars) : Chars :=
  mapLines (headingRepl "# ".data "<h1>".data "</h1>".data)
    (mapLines (headingRepl "## ".data "<h2>".data "</h2>".data)
      (mapLines (headingRepl "### ".data "<h3>".data "</h3>".data) cs))

/-- Line 233: `replace(/^\- (.*$)/gm, '<li>$1</li>')`. -/
def liLine (l : Chars) : Chars :=
  if isPrefixB "- ".data l then "<li>".data ++ l.drop 2 ++ "</li>".data else l

/-- The items collected by `match.match(/<li>.*?<\/li>/g)` (line 235):
single-line `<li>...</li>` spans, scanned left to right. -/
def innerLiItems : Nat → Chars → List Chars
  | 0, _ => []
  | Nat.succ _, [] => []
  | Nat.succ f, c :: rest =>
    if isPrefixB "<li>".data (c :: rest) then
      let after := (c :: rest).drop 4
      let line := after.takeWhile (fun x => !(x == '\n'))
      match splitFirst "</li>".data line with
      | some (content, _) =>
        ("<li>".data ++ content ++ "</li>".data) :: innerLiItems f (after.drop (content.length + 5))
      | none => innerLiItems f rest
    else innerLiItems f rest

/-- Lines 234–237: `replace(/(<li>.*<\/li>)/s, cb)` (single match, `s`
flag): the region runs from the first `<li>` to the end of the last
`</li>`; the callback collects the single-line items and joins them in
a `<ul>`.  If the region holds no single-line item, `match()` returns
`null` and `items.join` throws — embedded as `none`. -/
def wrapLis (cs : Chars) : Option Chars :=
  match splitFirst "<li>".data cs with
  | none => some cs
  | some (before, afterLi) =>
    match lastSplit "</li>".data (afterLi.length + 1) afterLi with
    | none => some cs
    | some (mid, after) =>
      let region := "<li>".data ++ mid ++ "</li>".data
      match innerLiItems (region.length + 1) region with
      | [] => none
      | items => some (before ++ "<ul>".data ++ items.flatten ++ "</ul>".data ++ after)

/-- Lines 241, 245, 252–253: the callback's row list and the table built
from it.  Rows are the newline-split lines of the match that are
non-blank and contain a `|`; cells are `split('|').slice(1, -1)`;
the row at index 1 is skipped as the separator. -/
def tableRows (m : Chars) : List Chars :=
  (splitNL m).filter (fun r => !(jsTrim r).isEmpty && occursB ['|'] r)

def tableCells (r : Chars) : List Chars :=
  ((splitOnSub ['|'] (r.length + 1) r).drop 1).dropLast

def tableBuild (r0 : Chars) (body : List Chars) : Chars :=
  "<table><thead><tr>".data ++
    ((tableCells r0).map (fun h => "<th>".data ++ jsTrim h ++ "</th>".data)).flatten ++
    "</tr></thead><tbody>".data ++
    (body.map (fun r =>
      "<tr>".data ++
        ((tableCells r).map (fun c => "<td>".data ++ jsTrim c ++ "</td>".data)).flatten ++
        "</tr>".data)).flatten ++
    "</tbody></table>".data

/-- user-guide.js lines 240–263 callback: fewer than 2 rows returns the
match unchanged. -/
def tableCB1 (m : Chars) : Chars :=
  match tableRows m with
  | r0 :: _ :: body => tableBuild r0 body
  | _ => m

/-- A position viable for `/\|([^|]+\|[^|]+(\|[^|]*)*)\|/`: a `|` followed
by a nonempty pipe-free gap, another `|`, another nonempty pipe-free
gap, and at least one further `|` ( `[^|]` also matches newlines). -/
def tableViable (cs : Chars) : Bool :=
  match cs with
  | '|' :: rest =>
    let g1 := rest.takeWhile (fun c => !(c == '|'))
    let r1 := rest.drop g1.length
    !g1.isEmpty &&
      (match r1 with
       | '|' :: rest2 =>
         let g2 := rest2.takeWhile (fun c => !(c == '|'))
         let r2 := rest2.drop g2.length
         !g2.isEmpty && !r2.isEmpty
       | _ => false)
  | _ => false

/-- Line 240: `replace(/\|([^|]+\|[^|]+(\|[^|]*)*)\|/g, cb)`.  At a viable
start the greedy star with backtracking extends the match to the last
`|` of the remaining text; everything after holds no `|`, so the global
scan then finds nothing more. -/
def tablesStage1 : Nat → Chars → Chars
  | 0, cs => cs
  | Nat.succ _, [] => []
  | Nat.succ f, c :: rest =>
    if tableViable (c :: rest) then
      match lastSplit ['|'] ((c :: rest).length + 1) (c :: rest) with
      | some (b, a) => tableCB1 (b ++ ['|']) ++ tablesStage1 f a
      | none => c :: tablesStage1 f rest
    else c :: tablesStage1 f rest

/-- Lines 266–272: `split('\n\n')`, trim each block, pass through blocks
already starting with `<`, wrap the rest in `<p>`. -/
def paragraphBlock1 (b : Chars) : Chars :=
  let t := jsTrim b
  if t.isEmpty then []
  else if isPrefixB ['<'] t then t
  else "<p>".data ++ t ++ "</p>".data

def paragraphs1 (cs : Chars) : Chars :=
  joinNL ((splitOnSub "\n\n".data (cs.length + 1) cs).map paragraphBlock1)

/-- Lines 276–277: drop `<p></p>` artifacts, collapse newline runs. -/
def cleanup1 (cs : Chars) : Chars :=
  collapseNL (replaceAllSub "<p></p>".data [] (cs.length + 1) cs)

/-- `markdownToHtml` of src/user-guide.js (lines 214–278).  The only
fallible step is the list-wrapping stage. -/
def markdownToHtml1 (s : String) : Option String :=
  let t := headingsStage1 s.data
  let t := emphasisStage t
  let t := linksStage (t.length + 1) t
  let t := fenceStage (t.length + 1) t
  let t := inlineCodeStage (t.length + 1) t
  let t := mapLines liLine t
  match wrapLis t with
  | none => none
  | some t2 => some (String.mk (cleanup1 (paragraphs1 (tablesStage1 (t2.length + 1) t2))))

/-! ## markdownToHtml, src/assets/user-guide.js variant (lines 210–366) -/

/-- Lines 214–217: `####`, `###`, `##`, `#` passes in that order. -/
def headingsStageA (cs : Chars) : Chars :=
  mapLines (headingRepl "# ".data "<h1>".data "</h1>".data)
    (mapLines (headingRepl "## ".data "<h2>".data "</h2>".data)
      (mapLines (headingRepl "### ".data "<h3>".data "</h3>".data)
        (mapLines (headingRepl "#### ".data "<h4>".data "</h4>".data) cs)))

/-- The character class `[-|:\s]` of the separator row. -/
def sepClass (c : Char) : Bool := c == '-' || c == '|' || c == ':' || isJsWs c

/-- Indices of `|` characters. -/
def pipeIdxs (cs : Chars) : List Nat :=
  (List.range cs.length).filter (fun i => cs.getD i ' ' == '|')

/-- The `|` matched by `\|` after the greedy class run `[-|:\s]+` of
`\|[-|:\s]+\|[^\n]*\n`: backtracking picks the rightmost `|` inside the
run that leaves a nonempty class part before it and is still followed
by a newline somewhere (so that the trailing `[^\n]*\n` can match). -/
def sepPipePos (run t : Chars) : Option Nat :=
  ((pipeIdxs run).filter
    (fun q => Nat.ble 1 q && occursB ['\n'] (t.drop (q + 1)))).getLast?

/-- The data-row star `(\|[^|\n]+\|[^\n]*\n?)*`: greedily take lines
shaped `|cell|rest-of-line`, each with its optional trailing newline.
Returns the consumed text and the remainder. -/
def dataLines : Nat → Chars → Chars × Chars
  | 0, cs => ([], cs)
  | Nat.succ f, cs =>
    match cs with
    | '|' :: v =>
      let g := v.takeWhile (fun c => !(c == '|') && !(c == '\n'))
      let v1 := v.drop g.length
      if g.isEmpty then ([], cs)
      else
        match v1 with
        | '|' :: w =>
          let lr := w.takeWhile (fun c => !(c == '\n'))
          let w1 := w.drop lr.length
          match w1 with
          | '\n' :: w2 =>
            match dataLines f w2 with
            | (d, rest) => ('|' :: g ++ '|' :: lr ++ '\n' :: d, rest)
          | _ => ('|' :: g ++ '|' :: lr, w1)
        | _ => ([], cs)
    | _ => ([], cs)

/-- One attempt of
`/(\|[^|\n]+\|[^\n]*\n\|[-|:\s]+\|[^\n]*\n(\|[^|\n]+\|[^\n]*\n?)*)/`
at the current position: a `|cell|...` line, a newline, a separator row
(initial `|`, class run, the backtracked `|`, rest of line, newline),
then greedy data rows.  Returns `(match, remainder)`. -/
def tryTableA (cs : Chars) : Option (Chars × Chars) :=
  match cs with
  | '|' :: r =>
    let g1 := r.takeWhile (fun c => !(c == '|') && !(c == '\n'))
    let r1 := r.drop g1.length
    if g1.isEmpty then none
    else
      match r1 with
      | '|' :: r2 =>
        let lineRest := r2.takeWhile (fun c => !(c == '\n'))
        let r3 := r2.drop lineRest.length
        match r3 with
        | '\n' :: r4 =>
          match r4 with
          | '|' :: t =>
            let run := t.takeWhile sepClass
            match sepPipePos run t with
            | none => none
            | some q =>
              let afterQ := t.drop (q + 1)
              let lr2 := afterQ.takeWhile (fun c => !(c == '\n'))
              let r5 := afterQ.drop lr2.length
              match r5 with
              | '\n' :: r6 =>
                match dataLines (r6.length + 1) r6 with
                | (dat, rest) =>
                  some ('|' :: g1 ++ '|' :: lineRest ++ '\n' :: '|' :: t.take (q + 1) ++
                    lr2 ++ '\n' :: dat, rest)
              | _ => none
          | _ => none
        | _ => none
      | _ => none
  | _ => none

/-- assets lines 232–233: `match.trim().split('\n').filter(...)`;
the builder is the same as in the other variant, but the rows come
from the trimmed match while fewer than 2 rows return the untrimmed
match. -/
def tableCBA (m : Chars) : Chars :=
  match tableRows (jsTrim m) with
  | r0 :: _ :: body => tableBuild r0 body
  | _ => m

/-- assets line 231: the global table replacement. -/
def tablesStageA : Nat → Chars → Chars
  | 0, cs => cs
  | Nat.succ _, [] => []
  | Nat.succ f, c :: rest =>
    match tryTableA (c :: rest) with
    | some (m, after) => tableCBA m ++ tablesStageA f after
    | none => c :: tablesStageA f rest

/-- assets line 257: `split(/\n\n+/)` — blocks separated by runs of two or
more newlines (a single newline stays inside its block). -/
def splitBlanks : Nat → Chars → List Chars
  | 0, cs => [cs]
  | Nat.succ f, cs =>
    match cs with
    | [] => [[]]
    | c :: rest =>
      if c == '\n' then
        match rest with
        | '\n' :: _ =>
          [] :: splitBlanks f (rest.dropWhile (fun x => x == '\n'))
        | _ =>
          match splitBlanks f rest with
          | h :: t => ('\n' :: h) :: t
          | [] => [['\n']]
      else
        match splitBlanks f rest with
        | h :: t => (c :: h) :: t
        | [] => [[c]]

/-- assets lines 266–293: the unordered-list block builder. -/
def listBuildGo : List Chars → Bool → Chars
  | [], inList => if inList then "</ul>".data else []
  | l :: ls, inList =>
    let t := jsTrim l
    if isPrefixB "- ".data t then
      (if inList then [] else "<ul>".data) ++ "<li>".data ++ t.drop 2 ++ "</li>".data ++
        listBuildGo ls true
    else if inList then
      "</ul>".data ++ (if t.isEmpty then [] else "<p>".data ++ t ++ "</p>".data) ++
        listBuildGo ls false
    else if t.isEmpty then listBuildGo ls false
    else "<p>".data ++ t ++ "</p>".data ++ listBuildGo ls false

/-- `/^\d+\./` applied to a trimmed line. -/
def isNumDot (t : Chars) : Bool :=
  let ds := t.takeWhile Char.isDigit
  !ds.isEmpty && isPrefixB ['.'] (t.drop ds.length)

/-- `trimmed.replace(/^\d+\.\s*/, '')`. -/
def dropNumDot (t : Chars) : Chars :=
  let ds := t.takeWhile Char.isDigit
  ((t.drop ds.length).drop 1).dropWhile isJsWs

/-- assets lines 297–351: the ordered-list block builder; the second
boolean is `listContent.length > 0` (an open sub-`<ul>`). -/
def olGo : List Chars → Bool → Bool → Chars
  | [], inList, subOpen =>
    if inList then (if subOpen then "</ul>".data else []) ++ "</li></ol>".data else []
  | l :: ls, inList, subOpen =>
    let t := jsTrim l
    if isNumDot t then
      (if inList then [] else "<ol>".data) ++ "<li>".data ++ dropNumDot t ++ olGo ls true false
    else if isPrefixB "- ".data t && inList then
      (if subOpen then [] else "<ul>".data) ++ "<li>".data ++ t.drop 2 ++ "</li>".data ++
        olGo ls inList true
    else if !t.isEmpty && inList then
      (if subOpen then "</ul>".data else []) ++ "<div>".data ++ t ++ "</div>".data ++
        olGo ls inList false
    else if !t.isEmpty then
      (if inList then (if subOpen then "</ul>".data else []) ++ "</li></ol>".data else []) ++
        "<p>".data ++ t ++ "</p>".data ++ olGo ls false false
    else olGo ls inList subOpen

/-- assets lines 258–356: per-block dispatch after the blank-line split. -/
def sectionBlockA (b : Chars) : Chars :=
  let t := jsTrim b
  if t.isEmpty then []
  else if isPrefixB ['<'] t then t
  else if occursB "\n- ".data t then listBuildGo (splitNL t) false
  else if isNumDot t then olGo (splitNL t) false false
  else "<p>".data ++ t ++ "</p>".data

/-- assets line 363: `replace(/>\s+</g, '><')`. -/
def tagGapClean : Nat → Chars → Chars
  | 0, cs => cs
  | Nat.succ _, [] => []
  | Nat.succ f, c :: rest =>
    if c == '>' then
      let ws := rest.takeWhile isJsWs
      let r2 := rest.drop ws.length
      if !ws.isEmpty && isPrefixB ['<'] r2 then
        '>' :: '<' :: tagGapClean f (r2.drop 1)
      else '>' :: tagGapClean f rest
    else c :: tagGapClean f rest

/-- `markdownToHtml` of src/assets/user-guide.js (lines 210–366): a total
function — no step of this variant can throw. -/
def markdownToHtmlA (s : String) : String :=
  let t := headingsStageA s.data
  let t := emphasisStage t
  let t := linksStage (t.length + 1) t
  let t := fenceStage (t.length + 1) t
  let t := inlineCodeStage (t.length + 1) t
  let t := tablesStageA (t.length + 1) t
  let t := joinNL ((splitBlanks (t.length + 1) t).map sectionBlockA)
  let t := replaceAllSub "<p></p>".data [] (t.length + 1) t
  let t := collapseNL t
  String.mk (tagGapClean (t.length + 1) t)

/-! ## Claims about markdownToHtml -/

/-- C5: both variants convert the canonical three-line pipe table to a
table with header cells `A`,`B` and exactly one body row with cells
`1`,`2`; and a detected single-line pipe block (fewer than 2 rows) is
left unchanged by the table stage of either variant. -/
theorem markdownToHtml_table_conversion :
    markdownToHtml1 "| A | B |\n|---|---|\n| 1 | 2 |" =
      some "<table><thead><tr><th>A</th><th>B</th></tr></thead><tbody><tr><td>1</td><td>2</td></tr></tbody></table>" ∧
    markdownToHtmlA "| A | B |\n|---|---|\n| 1 | 2 |" =
      "<table><thead><tr><th>A</th><th>B</th></tr></thead><tbody><tr><td>1</td><td>2</td></tr></tbody></table>" ∧
    countSubS "<th>"
      "<table><thead><tr><th>A</th><th>B</th></tr></thead><tbody><tr><td>1</td><td>2</td></tr></tbody></table>" = 2 ∧
    countSubS "<td>"
      "<table><thead><tr><th>A</th><th>B</th></tr></thead><tbody><tr><td>1</td><td>2</td></tr></tbody></table>" = 2 ∧
    countSubS "<tr>"
      "<table><thead><tr><th>A</th><th>B</th></tr></thead><tbody><tr><td>1</td><td>2</td></tr></tbody></table>" = 2 ∧
    tablesStage1 ("| a | b |".data.length + 1) "| a | b |".data = "| a | b |".data ∧
    tablesStageA ("| a | b |".data.length + 1) "| a | b |".data = "| a | b |".data := by
  decide

/-- C6: on `"## Title\n\n- a\n- b\n"` both variants emit `<h2>Title</h2>`
followed by a `<ul>` holding exactly the two items `a` and `b`, with no
`<p></p>` artifact in the output. -/
theorem markdownToHtml_heading_list_roundtrip :
    markdownToHtml1 "## Title\n\n- a\n- b\n" =
      some "<h2>Title</h2>\n<ul><li>a</li><li>b</li></ul>" ∧
    markdownToHtmlA "## Title\n\n- a\n- b\n" =
      "<h2>Title</h2><ul><li>a</li><li>b</li></ul>" ∧
    countSubS "<li>" "<h2>Title</h2>\n<ul><li>a</li><li>b</li></ul>" = 2 ∧
    countSubS "<ul>" "<h2>Title</h2>\n<ul><li>a</li><li>b</li></ul>" = 1 ∧
    countSubS "<p></p>" "<h2>Title</h2>\n<ul><li>a</li><li>b</li></ul>" = 0 ∧
    countSubS "<li>" "<h2>Title</h2><ul><li>a</li><li>b</li></ul>" = 2 ∧
    countSubS "<p></p>" "<h2>Title</h2><ul><li>a</li><li>b</li></ul>" = 0 := by
  decide

/-- C7: the src/user-guide.js `markdownToHtml` is not total — on the input
`"<li>\n</li>"` its list-wrapping stage matches the multi-line region
with `/(<li>.*<\/li>)/s`, the inner `match(/<li>.*?<\/li>/g)` finds no
single-line item and returns `null`, and `null.join('')` throws; the
embedding returns `none` there.  The assets variant returns a plain
string on the same input. -/
theorem markdownToHtml_multiline_li_crash :
    markdownToHtml1 "<li>\n</li>" = none ∧
    markdownToHtmlA "<li>\n</li>" = "<li></li>" := by
  decide

/-- C9 counterexample: the src/user-guide.js variant has no `####` rule —
the line `"#### x"` is not rendered as `<h4>` (nor as any heading) but
as a paragraph keeping all four `#` characters, while the assets
variant does produce `<h4>x</h4>`. -/
theorem markdownToHtml_h4_missing_in_variant1 :
    markdownToHtml1 "#### x" = some "<p>#### x</p>" ∧
    countSubS "<h4>" "<p>#### x</p>" = 0 ∧
    markdownToHtmlA "#### x" = "<h4>x</h4>" := by
  decide

/-! ## The heading stage as a single longest-prefix-first pass -/

/-- The specification-side description of the heading stage: one pass over
each line, trying the four prefixes longest first. -/
def specHeadingMap (l : Chars) : Chars :=
  if isPrefixB "#### ".data l then "<h4>".data ++ l.drop 5 ++ "</h4>".data
  else if isPrefixB "### ".data l then "<h3>".data ++ l.drop 4 ++ "</h3>".data
  else if isPrefixB "## ".data l then "<h2>".data ++ l.drop 3 ++ "</h2>".data
  else if isPrefixB "# ".data l then "<h1>".data ++ l.drop 2 ++ "</h1>".data
  else l

theorem splitNL_ne_nil (cs : Chars) : splitNL cs ≠ [] := by
  induction cs with
  | nil => simp [splitNL]
  | cons c cs ih =>
    simp only [splitNL]
    split
    · simp
    · cases h : splitNL cs with
      | nil => exact absurd h ih
      | cons x xs => simp

theorem mem_splitNL_no_nl (cs : Chars) : ∀ l ∈ splitNL cs, ¬ '\n' ∈ l := by
  induction cs with
  | nil =>
    intro l hl
    simp [splitNL] at hl
    simp [hl]
  | cons c cs ih =>
    intro l hl
    simp only [splitNL] at hl
    by_cases hc : (c == '\n') = true
    · rw [if_pos hc] at hl
      rcases List.mem_cons.1 hl with h | h
      · simp [h]
      · exact ih l h
    · rw [if_neg hc] at hl
      have hcne : c ≠ '\n' := by
        intro h
        exact hc (by rw [h]; rfl)
      cases hsp : splitNL cs with
      | nil => exact absurd hsp (splitNL_ne_nil cs)
      | cons x xs =>
        rw [hsp] at hl
        rcases List.mem_cons.1 hl with h | h
        · subst h
          intro hmem
          rcases List.mem_cons.1 hmem with h | h
          · exact hcne h.symm
          · exact ih x (by rw [hsp]; exact List.mem_cons_self x xs) h
        · exact ih l (by rw [hsp]; exact List.mem_cons_of_mem x h)

theorem splitNL_of_no_nl (l : Chars) (h : ¬ '\n' ∈ l) : splitNL l = [l] := by
  induction l with
  | nil => rfl
  | cons c cs ih =>
    have hc : (c == '\n') = false := by
      have : c ≠ '\n' := fun hcc => h (by rw [hcc]; exact List.mem_cons_self _ _)
      simp [this]
    simp only [splitNL, hc]
    rw [ih (fun hm => h (List.mem_cons_of_mem c hm))]
    simp

theorem splitNL_append_nl (l t : Chars) (h : ¬ '\n' ∈ l) :
    splitNL (l ++ '\n' :: t) = l :: splitNL t := by
  induction l with
  | nil => simp [splitNL]
  | cons c cs ih =>
    have hc : (c == '\n') = false := by
      have : c ≠ '\n' := fun hcc => h (by rw [hcc]; exact List.mem_cons_self _ _)
      simp [this]
    show splitNL (c :: (cs ++ '\n' :: t)) = (c :: cs) :: splitNL t
    simp only [splitNL, hc, Bool.false_eq_true, if_false]
    rw [ih (fun hm => h (List.mem_cons_of_mem c hm))]

theorem splitNL_joinNL (ls : List Chars) (hne : ls ≠ [])
    (hno : ∀ l ∈ ls, ¬ '\n' ∈ l) : splitNL (joinNL ls) = ls := by
  induction ls with
  | nil => exact absurd rfl hne
  | cons l ls ih =>
    cases ls with
    | nil =>
      show splitNL (joinNL [l]) = [l]
      rw [joinNL]
      exact splitNL_of_no_nl l (hno l (List.mem_cons_self _ _))
    | cons l2 ls2 =>
      show splitNL (l ++ '\n' :: joinNL (l2 :: ls2)) = l :: l2 :: ls2
      rw [splitNL_append_nl l _ (hno l (List.mem_cons_self _ _)),
        ih (by simp) (fun x hx => hno x (List.mem_cons_of_mem l hx))]

theorem mapLines_comp (f g : Chars → Chars) (hf : ∀ l, ¬ '\n' ∈ l → ¬ '\n' ∈ f l)
    (cs : Chars) : mapLines g (mapLines f cs) = mapLines (fun l => g (f l)) cs := by
  unfold mapLines
  rw [splitNL_joinNL ((splitNL cs).map f)
    (by
      intro h
      exact splitNL_ne_nil cs (List.map_eq_nil_iff.1 h))
    (by
      intro l hl
      rcases List.mem_map.1 hl with ⟨x, hx, hfx⟩
      rw [← hfx]
      exact hf x (mem_splitNL_no_nl cs x hx)), List.map_map]
  rfl

theorem isPrefixB_hash_head (ps rest : Chars) :
    isPrefixB ('#' :: ps) ('<' :: rest) = false := by
  show (('#' == '<') && isPrefixB ps rest) = false
  rw [show ('#' == '<') = false from rfl, Bool.false_and]

theorem headingRepl_lt_head (ps o c rest : Chars) :
    headingRepl ('#' :: ps) o c ('<' :: rest) = '<' :: rest := by
  unfold headingRepl
  rw [isPrefixB_hash_head]
  simp

theorem hr4_skip (rest : Chars) :
    headingRepl "#### ".data "<h4>".data "</h4>".data ('<' :: rest) = '<' :: rest :=
  headingRepl_lt_head ['#', '#', '#', ' '] _ _ rest

theorem hr3_skip (rest : Chars) :
    headingRepl "### ".data "<h3>".data "</h3>".data ('<' :: rest) = '<' :: rest :=
  headingRepl_lt_head ['#', '#', ' '] _ _ rest

theorem hr2_skip (rest : Chars) :
    headingRepl "## ".data "<h2>".data "</h2>".data ('<' :: rest) = '<' :: rest :=
  headingRepl_lt_head ['#', ' '] _ _ rest

theorem hr1_skip (rest : Chars) :
    headingRepl "# ".data "<h1>".data "</h1>".data ('<' :: rest) = '<' :: rest :=
  headingRepl_lt_head [' '] _ _ rest

theorem headingRepl_no_nl (p o c l : Chars) (ho : ¬ '\n' ∈ o) (hc : ¬ '\n' ∈ c)
    (hl : ¬ '\n' ∈ l) : ¬ '\n' ∈ headingRepl p o c l := by
  unfold headingRepl
  split
  · intro hmem
    rcases List.mem_append.1 hmem with h | h
    · rcases List.mem_append.1 h with h | h
      · exact ho h
      · exact hl (List.mem_of_mem_drop h)
    · exact hc h
  · exact hl

theorem isPrefixB_append_self (p x : Chars) : isPrefixB p (p ++ x) = true := by
  induction p with
  | nil => rfl
  | cons c ps ih =>
    show ((c == c) && isPrefixB ps (ps ++ x)) = true
    rw [beq_self_eq_true, Bool.true_and]
    exact ih

theorem lineHeadingComp (l : Chars) :
    headingRepl "# ".data "<h1>".data "</h1>".data
      (headingRepl "## ".data "<h2>".data "</h2>".data
        (headingRepl "### ".data "<h3>".data "</h3>".data
          (headingRepl "#### ".data "<h4>".data "</h4>".data l))) = specHeadingMap l := by
  cases h4 : isPrefixB "#### ".data l with
  | true =>
    have e4 : headingRepl "#### ".data "<h4>".data "</h4>".data l =
        '<' :: ("h4>".data ++ (l.drop 5 ++ "</h4>".data)) := by
      unfold headingRepl
      rw [if_pos h4]
      rfl
    rw [e4, hr3_skip, hr2_skip, hr1_skip]
    unfold specHeadingMap
    rw [if_pos h4]
    rfl
  | false =>
    have e4 : headingRepl "#### ".data "<h4>".data "</h4>".data l = l := by
      simp [headingRepl, h4]
    rw [e4]
    cases h3 : isPrefixB "### ".data l with
    | true =>
      have e3 : headingRepl "### ".data "<h3>".data "</h3>".data l =
          '<' :: ("h3>".data ++ (l.drop 4 ++ "</h3>".data)) := by
        unfold headingRepl
        rw [if_pos h3]
        rfl
      rw [e3, hr2_skip, hr1_skip]
      unfold specHeadingMap
      rw [if_neg (by simp [h4]), if_pos h3]
      rfl
    | false =>
      have e3 : headingRepl "### ".data "<h3>".data "</h3>".data l = l := by
        simp [headingRepl, h3]
      rw [e3]
      cases h2 : isPrefixB "## ".data l with
      | true =>
        have e2 : headingRepl "## ".data "<h2>".data "</h2>".data l =
            '<' :: ("h2>".data ++ (l.drop 3 ++ "</h2>".data)) := by
          unfold headingRepl
          rw [if_pos h2]
          rfl
        rw [e2, hr1_skip]
        unfold specHeadingMap
        rw [if_neg (by simp [h4]), if_neg (by simp [h3]), if_pos h2]
        rfl
      | false =>
        have e2 : headingRepl "## ".data "<h2>".data "</h2>".data l = l := by
          simp [headingRepl, h2]
        rw [e2]
        cases h1 : isPrefixB "# ".data l with
        | true =>
          have e1 : headingRepl "# ".data "<h1>".data "</h1>".data l =
              '<' :: ("h1>".data ++ (l.drop 2 ++ "</h1>".data)) := by
            unfold headingRepl
            rw [if_pos h1]
            rfl
          rw [e1]
          unfold specHeadingMap
          rw [if_neg (by simp [h4]), if_neg (by simp [h3]), if_neg (by simp [h2]), if_pos h1]
          rfl
        | false =>
          have e1 : headingRepl "# ".data "<h1>".data "</h1>".data l = l := by
            simp [headingRepl, h1]
          rw [e1]
          simp [specHeadingMap, h4, h3, h2, h1]

/-- C9 (amended): the heading stage of the assets-variant `markdownToHtml`
(the four `replace` passes of lines 214–217) is exactly one per-line pass
matching the longest prefix first: `#### ` lines become `<h4>`, then
`### `, `## `, `# ` lines the corresponding shorter tags, and in
particular a line beginning `#### ` is always rendered `<h4>...</h4>`,
never a shorter heading with leftover `#`.  (The src/user-guide.js
variant lacks the `#### ` pass and renders such lines as plain text.) -/
theorem heading_stage_longest_prefix :
    (∀ cs : Chars, headingsStageA cs = mapLines specHeadingMap cs) ∧
    (∀ rest : Chars,
      specHeadingMap ("#### ".data ++ rest) = "<h4>".data ++ rest ++ "</h4>".data) := by
  constructor
  · intro cs
    have p4 : ∀ l : Chars, ¬ '\n' ∈ l →
        ¬ '\n' ∈ headingRepl "#### ".data "<h4>".data "</h4>".data l :=
      fun l hl => headingRepl_no_nl _ _ _ l (by decide) (by decide) hl
    have p34 : ∀ l : Chars, ¬ '\n' ∈ l →
        ¬ '\n' ∈ headingRepl "### ".data "<h3>".data "</h3>".data
          (headingRepl "#### ".data "<h4>".data "</h4>".data l) :=
      fun l hl => headingRepl_no_nl _ _ _ _ (by decide) (by decide) (p4 l hl)
    have p234 : ∀ l : Chars, ¬ '\n' ∈ l →
        ¬ '\n' ∈ headingRepl "## ".data "<h2>".data "</h2>".data
          (headingRepl "### ".data "<h3>".data "</h3>".data
            (headingRepl "#### ".data "<h4>".data "</h4>".data l)) :=
      fun l hl => headingRepl_no_nl _ _ _ _ (by decide) (by decide) (p34 l hl)
    unfold headingsStageA
    rw [mapLines_comp _ _ p4, mapLines_comp _ _ p34, mapLines_comp _ _ p234]
    unfold mapLines
    congr 1
    exact List.map_congr_left (fun l _ => lineHeadingComp l)
  · intro rest
    unfold specHeadingMap
    rw [if_pos (isPrefixB_append_self "#### ".data rest)]
    rfl
